import Mathlib

/-!
Shallow embedding of the Command Safety & Execution Pipeline of
`main.py` (IT Assistant v1.2): response parsing, security classification,
permission negotiation, bounded command execution, and the failure-to-retry
recovery loop.

Strings are modelled as `List Char` (`Str`).  Python string operations
(`lower`, `strip`, `split`, substring, `re.search`, `re.findall`) are
embedded as executable functions over `Str`, restricted to ASCII, which is
the alphabet of all configured rules.  Terminal input is modelled as an
explicit list of lines consumed in order; the Ollama chat backend and the
spawned process are oracles passed in as functions.
-/

/-- Command strings, modelled as lists of characters. -/
abbrev Str := List Char

/-- The backtick character (written via its code point so that it can be
used in character-level reasoning). -/
def btick : Char := Char.ofNat 96

/-- Python's `\s` / `str.strip` whitespace set, restricted to ASCII:
space, tab, newline, carriage return, vertical tab, form feed. -/
def pyWs (c : Char) : Bool :=
  c = ' ' || c = '\t' || c = '\n' || c = '\r' || c = '\x0b' || c = '\x0c'

/-- ASCII model of Python `str.lower` on a single character. -/
def lowerChar (c : Char) : Char :=
  match c with
  | 'A' => 'a' | 'B' => 'b' | 'C' => 'c' | 'D' => 'd' | 'E' => 'e'
  | 'F' => 'f' | 'G' => 'g' | 'H' => 'h' | 'I' => 'i' | 'J' => 'j'
  | 'K' => 'k' | 'L' => 'l' | 'M' => 'm' | 'N' => 'n' | 'O' => 'o'
  | 'P' => 'p' | 'Q' => 'q' | 'R' => 'r' | 'S' => 's' | 'T' => 't'
  | 'U' => 'u' | 'V' => 'v' | 'W' => 'w' | 'X' => 'x' | 'Y' => 'y'
  | 'Z' => 'z'
  | c => c

/-- Python `str.lower` over a whole string. -/
def strLower (s : Str) : Str := s.map lowerChar

/-- Python `str.strip`: drop leading and trailing whitespace. -/
def pyStrip (s : Str) : Str :=
  ((s.dropWhile pyWs).reverse.dropWhile pyWs).reverse

/-- `s.lower().strip()`, the normalisation applied to console replies. -/
def pyLowerStrip (s : Str) : Str := pyStrip (strLower s)

/-- First word of `command.split()`: the first maximal run of
non-whitespace characters, `none` when the string is all whitespace
(where Python `command.split()[0]` raises `IndexError`). -/
def firstWord (s : Str) : Option Str :=
  match s.dropWhile pyWs with
  | [] => none
  | c :: rest => some (c :: rest.takeWhile (fun d => !pyWs d))

/-- Minimal regular-expression ASTs covering exactly the constructs used by
`Config.dangerous_commands`: literals, `\s`, `.` (any char except newline,
since `re.DOTALL` is not passed to `re.search`), concatenation, alternation
(for the fork-bomb pattern, where `|` splits the whole pattern), the empty
group `()`, a failure regex, and Kleene star (for `.*`). -/
inductive Regex where
  | fail : Regex
  | eps : Regex
  | lit (c : Char) : Regex
  | wsc : Regex
  | dot : Regex
  | seq (r1 r2 : Regex) : Regex
  | alt (r1 r2 : Regex) : Regex
  | star (r : Regex) : Regex

/-- Does the regex accept the empty string? -/
def Regex.nullable : Regex → Bool
  | .fail => false
  | .eps => true
  | .lit _ => false
  | .wsc => false
  | .dot => false
  | .seq r1 r2 => r1.nullable && r2.nullable
  | .alt r1 r2 => r1.nullable || r2.nullable
  | .star _ => true

/-- Brzozowski derivative of a regex with respect to one character. -/
def Regex.deriv : Regex → Char → Regex
  | .fail, _ => .fail
  | .eps, _ => .fail
  | .lit c, d => if d = c then .eps else .fail
  | .wsc, d => if pyWs d then .eps else .fail
  | .dot, d => if d = '\n' then .fail else .eps
  | .seq r1 r2, d =>
    if r1.nullable then .alt (.seq (r1.deriv d) r2) (r2.deriv d)
    else .seq (r1.deriv d) r2
  | .alt r1 r2, d => .alt (r1.deriv d) (r2.deriv d)
  | .star r, d => .seq (r.deriv d) (.star r)

/-- Does some prefix of `s` match `r`? -/
def matchPfx (r : Regex) : Str → Bool
  | [] => r.nullable
  | c :: cs => r.nullable || matchPfx (r.deriv c) cs

/-- `re.search r s ≠ None`: some substring of `s`, starting anywhere,
matches `r`. -/
def rsearch (r : Regex) : Str → Bool
  | [] => r.nullable
  | c :: cs => matchPfx r (c :: cs) || rsearch r cs

/-- Concatenate a literal string into a regex. -/
def Regex.str : Str → Regex
  | [] => .eps
  | c :: cs => .seq (.lit c) (Regex.str cs)

/-- `\s+`. -/
def wsPlus : Regex := .seq .wsc (.star .wsc)

/-- Helper: literal-piece then `\s+` then continue. -/
def litWs (s : Str) (rest : Regex) : Regex := .seq (Regex.str s) (.seq wsPlus rest)

/-- The nine `Config.dangerous_commands` regexes, paired with their source
pattern text (used in the denial reason).  The fork-bomb pattern
`:(){ :|:& };:` is, as a Python regex, an alternation whose two branches
are `:` + empty group + `{ :` and `:& };:`. -/
def dangerous_commands_default : List (Regex × Str) :=
  [ (litWs "rm".toList (litWs "-rf".toList (Regex.str "/".toList)),
      "rm\\s+-rf\\s+/".toList),
    (litWs "format".toList (Regex.str "c:".toList),
      "format\\s+c:".toList),
    (litWs "del".toList (litWs "/s".toList (litWs "/q".toList (Regex.str "c:\\".toList))),
      "del\\s+/s\\s+/q\\s+c:\\\\".toList),
    (litWs "shutdown".toList (litWs "-h".toList (Regex.str "now".toList)),
      "shutdown\\s+-h\\s+now".toList),
    (litWs "init".toList (Regex.str "0".toList),
      "init\\s+0".toList),
    (.alt (.seq (.lit ':') (.seq .eps (Regex.str "\x7b :".toList)))
          (Regex.str ":& \x7d;:".toList),
      ":()\x7b :|:& \x7d;:".toList),
    (litWs "dd".toList (Regex.str "if=/dev/zero".toList),
      "dd\\s+if=/dev/zero".toList),
    (Regex.str "mkfs.".toList,
      "mkfs\\.".toList),
    (.seq (Regex.str "fdisk".toList) (.seq (.star .dot) (Regex.str "--delete".toList)),
      "fdisk.*--delete".toList) ]

/-- The `Config.privileged_commands` vocabulary. -/
def privileged_commands_default : List Str :=
  [ "sudo".toList, "su".toList, "doas".toList, "runas".toList,
    "systemctl".toList, "service".toList, "chkconfig".toList,
    "apt".toList, "yum".toList, "dnf".toList, "pacman".toList, "zypper".toList,
    "mount".toList, "umount".toList, "fsck".toList,
    "iptables".toList, "ufw".toList, "firewall-cmd".toList,
    "choco".toList, "brew".toList ]

/-- The fields of `Config` that the Command Safety & Execution Pipeline
reads.  Backend URL, model name and logging configuration are external
collaborators and are not modelled. -/
structure Config where
  command_timeout : Nat
  max_retries : Nat
  conversation_history_limit : Nat
  require_confirmation : Bool
  dangerous_commands : List (Regex × Str)
  privileged_commands : List Str

/-- `Config.__init__` defaults. -/
def defaultConfig : Config :=
  { command_timeout := 30
    max_retries := 3
    conversation_history_limit := 50
    require_confirmation := true
    dangerous_commands := dangerous_commands_default
    privileged_commands := privileged_commands_default }

/-- The reason string produced for a dangerous command. -/
def danger_reason (pat : Str) : Str :=
  "Command matches dangerous pattern: ".toList ++ pat

/-- `SecurityValidator.is_dangerous_command`: first pattern (in list order)
whose case-insensitive search succeeds wins; the IGNORECASE search is
modelled by lowering the command (all patterns are already lower case). -/
def is_dangerous_command (cfg : Config) (command : Str) : Bool × Str :=
  go cfg.dangerous_commands
where
  go : List (Regex × Str) → Bool × Str
    | [] => (false, [])
    | (r, pat) :: rest =>
      if rsearch r (strLower command) then (true, danger_reason pat) else go rest

/-- Python's substring test `pat in s`. -/
def isSubstr (pat : Str) : Str → Bool
  | [] => pat.isEmpty
  | c :: rest => pat.isPrefixOf (c :: rest) || isSubstr pat rest

/-- `SecurityValidator.requires_privileges`: substring membership of any
privileged token in the lower-cased, stripped command. -/
def requires_privileges (cfg : Config) (command : Str) : Bool :=
  cfg.privileged_commands.any (fun cmd => isSubstr cmd (pyStrip (strLower command)))

/-- `SecurityValidator.validate_command`, returning
`(is_safe, reason, requires_privileges)`. -/
def validate_command (cfg : Config) (command : Str) : Bool × Str × Bool :=
  let d := is_dangerous_command cfg command
  if d.1 then (false, d.2, false)
  else (true, [], requires_privileges cfg command)

/-- The static explanation table of `PermissionManager._explain_command`. -/
def explanations : List (Str × Str) :=
  [ ("sudo".toList, "Executes command with administrator privileges".toList),
    ("systemctl".toList, "Controls system services (start, stop, restart, enable, disable)".toList),
    ("apt".toList, "Package manager for Debian/Ubuntu systems".toList),
    ("yum".toList, "Package manager for Red Hat based systems".toList),
    ("dnf".toList, "Package manager for newer Red Hat based systems".toList),
    ("pacman".toList, "Package manager for Arch Linux".toList),
    ("zypper".toList, "Package manager for openSUSE".toList),
    ("mount".toList, "Attaches filesystem to directory tree".toList),
    ("iptables".toList, "Configures firewall rules".toList),
    ("choco".toList, "Package manager for Windows".toList),
    ("brew".toList, "Package manager for macOS".toList) ]

/-- The explanation printed for a first word `w`:
`explanations.get(cmd_word, "No detailed explanation available")`. -/
def explanation_for (w : Str) : Str :=
  ((explanations.lookup w).getD "No detailed explanation available".toList)

/-- `PermissionManager._explain_command`: keyed by `command.split()[0]`;
`none` models the `IndexError` raised when the command has no words. -/
def explain_command (command : Str) : Option Str :=
  (firstWord command).map explanation_for

/-- Outcome of the consent negotiation.  `waiting` means the supplied input
lines ran out with no decision (the real loop would still be blocked
reading); `crashed` models the `IndexError` escaping from
`_explain_command` on a word-less command. -/
inductive Consent where
  | approved : Consent
  | denied : Consent
  | waiting : Consent
  | crashed : Consent
deriving DecidableEq

/-- The `while True` decision loop of `request_permission`, consuming one
input line per iteration.  Returns the decision, the unconsumed input
lines, and the list of explanation texts printed along the way. -/
def requestLoop (command : Str) : List Str → Consent × List Str × List Str
  | [] => (.waiting, [], [])
  | line :: rest =>
    let t := pyLowerStrip line
    if t = "yes".toList || t = "y".toList then (.approved, rest, [])
    else if t = "no".toList || t = "n".toList then (.denied, rest, [])
    else if t = "explain".toList || t = "e".toList then
      match explain_command command with
      | some e =>
        let r := requestLoop command rest
        (r.1, r.2.1, e :: r.2.2)
      | none => (.crashed, rest, [])
    else requestLoop command rest

/-- `PermissionManager.request_permission`; `purpose` and `risks` are only
printed and do not influence the result. -/
def request_permission (cfg : Config) (command : Str) (stdin : List Str) :
    Consent × List Str × List Str :=
  if cfg.require_confirmation then requestLoop command stdin
  else (.approved, stdin, [])

/-- Behaviour of the spawned child process, an oracle per command text:
`spawnError` models an exception from `subprocess.Popen` (no process
started), `timesOut` a `subprocess.TimeoutExpired` from `communicate`,
`completes code out err` a normal completion. -/
inductive ProcBehavior where
  | spawnError (msg : Str) : ProcBehavior
  | timesOut : ProcBehavior
  | completes (code : Int) (out err : Str) : ProcBehavior
deriving DecidableEq

/-- The `(success, stdout, stderr)` triple returned by
`CommandExecutor.execute_command`, instrumented with a ghost flag
`spawned` recording whether `subprocess.Popen` was reached. -/
structure ExecResult where
  success : Bool
  stdout : Str
  stderr : Str
  spawned : Bool
deriving DecidableEq

/-- Result of `execute_command`: a triple plus the unconsumed input lines,
or a consent negotiation that never returned / crashed. -/
inductive ExecOut where
  | ok (r : ExecResult) (stdin : List Str) : ExecOut
  | waiting : ExecOut
  | crashed : ExecOut
deriving DecidableEq

/-- The security-block message `f"Command blocked for security: {reason}"`. -/
def security_block_message (reason : Str) : Str :=
  "Command blocked for security: ".toList ++ reason

/-- The timeout message `f"Command timed out after {timeout} seconds"`. -/
def timeout_message (timeout : Nat) : Str :=
  "Command timed out after ".toList ++ Nat.toDigits 10 timeout ++ " seconds".toList

/-- The `try` block of `execute_command`: spawn and wait. -/
def runProc (cfg : Config) (proc : Str → ProcBehavior) (command : Str)
    (stdin : List Str) : ExecOut :=
  match proc command with
  | .spawnError msg => .ok ⟨false, [], "Execution error: ".toList ++ msg, false⟩ stdin
  | .timesOut => .ok ⟨false, [], timeout_message cfg.command_timeout, true⟩ stdin
  | .completes code out err => .ok ⟨code == 0, out, err, true⟩ stdin

/-- `CommandExecutor.execute_command` (called with the default timeout, so
the bound is `cfg.command_timeout`): validate, gate privileged commands on
consent, then spawn. -/
def execute_command (cfg : Config) (proc : Str → ProcBehavior) (command : Str)
    (stdin : List Str) : ExecOut :=
  let v := validate_command cfg command
  if !v.1 then .ok ⟨false, [], security_block_message v.2.1, false⟩ stdin
  else if v.2.2 then
    match request_permission cfg command stdin with
    | (.approved, stdin1, _) => runProc cfg proc command stdin1
    | (.denied, stdin1, _) => .ok ⟨false, [], "Permission denied by user".toList, false⟩ stdin1
    | (.waiting, _, _) => .waiting
    | (.crashed, _, _) => .crashed
  else runProc cfg proc command stdin

/-- The recovery-loop retry guard `if not success and stderr:`. -/
def retry_condition (success : Bool) (stderr : Str) : Bool :=
  !success && !stderr.isEmpty

/-- Split `s` at the first occurrence of `pat`:
`some (pre, post)` with `s = pre ++ pat ++ post`, scanning left to right. -/
def splitAtFirst (pat : Str) : Str → Option (Str × Str)
  | [] => none
  | c :: rest =>
    if pat.isPrefixOf (c :: rest) then some ([], (c :: rest).drop pat.length)
    else
      match splitAtFirst pat rest with
      | some (pre, post) => some (c :: pre, post)
      | none => none

/-- Case-insensitive prefix test (tags and markers are lower case, the
scanned text is lowered character-wise, modelling `re.IGNORECASE`). -/
def startsWithCI : Str → Str → Bool
  | [], _ => true
  | _ :: _, [] => false
  | t :: ts, c :: cs => lowerChar c == t && startsWithCI ts cs

/-- The closing delimiter `\n`+three backticks of a fenced block. -/
def closeTok : Str := "\n```".toList

/-- One scanning pass for a fenced pattern `TAG(.*?)\n`+three backticks
(with `re.DOTALL`): at each position, if the opening tag matches, the lazy
group captures up to the first close delimiter and the continuation `cont`
resumes after the match (findall is non-overlapping); otherwise move one
character. -/
def findFencedScan (tag : Str) (cont : Str → List Str) : Str → List Str
  | [] => []
  | c :: rest =>
    if startsWithCI tag (c :: rest) then
      match splitAtFirst closeTok ((c :: rest).drop tag.length) with
      | some (body, post) => body :: cont post
      | none => findFencedScan tag cont rest
    else findFencedScan tag cont rest

/-- Iterated scanning; `fuel` bounds the number of matches and is
instantiated with `length + 1`, which can never be exhausted since every
match strictly shortens the remaining text. -/
def findFencedGo (tag : Str) : Nat → Str → List Str
  | 0, _ => []
  | Nat.succ f, s => findFencedScan tag (findFencedGo tag f) s

/-- `re.findall` for one fenced-block pattern. -/
def findFenced (tag : Str) (s : Str) : List Str := findFencedGo tag (s.length + 1) s

/-- Attempt the `\s*` + backtick + `([^`]+)` + backtick part of a marker
pattern at the current position: `some (group, rest-after-match)` on
success. -/
def markerAttempt (after : Str) : Option (Str × Str) :=
  match after.dropWhile pyWs with
  | b :: tail =>
    if b = btick then
      match splitAtFirst [btick] tail with
      | some (grp, post) => if grp.isEmpty then none else some (grp, post)
      | none => none
    else none
  | [] => none

/-- One scanning pass for a marker pattern
`Marker:\s*` + backtick + `([^`]+)` + backtick (group = nonempty run of
non-backticks), with continuation `cont` after a match. -/
def findMarkerScan (marker : Str) (cont : Str → List Str) : Str → List Str
  | [] => []
  | c :: rest =>
    if startsWithCI marker (c :: rest) then
      match markerAttempt ((c :: rest).drop marker.length) with
      | some (grp, post) => grp :: cont post
      | none => findMarkerScan marker cont rest
    else findMarkerScan marker cont rest

/-- Iterated marker scanning, fuelled like `findFencedGo`. -/
def findMarkerGo (marker : Str) : Nat → Str → List Str
  | 0, _ => []
  | Nat.succ f, s => findMarkerScan marker (findMarkerGo marker f) s

/-- `re.findall` for one marker pattern. -/
def findMarker (marker : Str) (s : Str) : List Str := findMarkerGo marker (s.length + 1) s

/-- The post-processing filter of `extract_commands`:
`if cmd and not cmd.startswith('#')`. -/
def isKept (cmd : Str) : Bool :=
  match cmd with
  | [] => false
  | d :: _ => d != '#'

/-- `ResponseParser.extract_commands`: the seven `command_patterns` applied
in order to the whole response, matches concatenated in pattern order,
each stripped, empty or comment results discarded. -/
def extract_commands (response : Str) : List Str :=
  let raw :=
    findFenced "```bash\n".toList response ++
    findFenced "```shell\n".toList response ++
    findFenced "```sh\n".toList response ++
    findMarker "command:".toList response ++
    findMarker "execute:".toList response ++
    findMarker "run:".toList response ++
    findFenced "```\n".toList response
  (raw.map pyStrip).filter isKept

/-- A conversation message (role and content; timestamp and metadata are
logging-only and not modelled). -/
structure Message where
  role : Str
  content : Str
deriving DecidableEq

/-- `ConversationManager.add_message`: append, then keep only the last
`conversation_history_limit` entries when over the limit. -/
def add_message (cfg : Config) (hist : List Message) (role content : Str) :
    List Message :=
  let h := hist ++ [⟨role, content⟩]
  if cfg.conversation_history_limit < h.length then
    h.drop (h.length - cfg.conversation_history_limit)
  else h

/-- The system prompt prepended by `get_chat_messages`. -/
def system_prompt : Str :=
  ("You are an expert IT professional assistant. Your role is to help users with any technical requests while maintaining the highest standards of professionalism, security, and problem-solving expertise.\n\nWhen providing solutions:\n1. Analyze the request carefully and determine if it\x27s actionable\n2. Ask for specific information if needed\n3. Provide step-by-step solutions with clear explanations\n4. For executable commands, wrap them in ```bash or ```shell code blocks\n5. Explain what each command does and why it\x27s needed\n6. Mention any risks or side effects\n7. Provide verification steps after execution\n\nAlways prioritize system stability and security. Be thorough, professional, and educational in your responses.").toList

/-- `ConversationManager.get_chat_messages`: system prompt then history. -/
def get_chat_messages (hist : List Message) : List Message :=
  ⟨"system".toList, system_prompt⟩ :: hist

/-- The follow-up request built by `handle_command_execution` when a
command fails with non-empty stderr. -/
def fix_request (command stderr : Str) : Str :=
  "The command \x27".toList ++ command ++ "\x27 failed with this error:\n".toList ++
    stderr ++ "\nPlease analyze this error and provide a solution or alternative approach.".toList

/-- Result of one pass of the `for command in commands` loop of
`handle_command_execution`: finish with the response to return, block on
input, crash, or recurse into a new model response (`recur`, carrying the
unconsumed input and updated history). -/
inductive LoopStep where
  | done (final : Str) (stdin : List Str) (hist : List Message) : LoopStep
  | waiting : LoopStep
  | crashed : LoopStep
  | recur (fix : Str) (stdin : List Str) (hist : List Message) : LoopStep
deriving DecidableEq

/-- The candidate loop of `handle_command_execution`: prompt
`Execute this command? (y/n)` (consuming one input line), execute on
exactly `y`, and on a failure with non-empty stderr append the fix request,
call the model, and — when it answers — return its response for recursion. -/
def handleLoop (cfg : Config) (proc : Str → ProcBehavior)
    (chatFn : List Message → Option Str) :
    List Str → List Str → List Message → Str → LoopStep
  | [], stdin, hist, response => .done response stdin hist
  | command :: rest, stdin, hist, response =>
    match stdin with
    | [] => .waiting
    | line :: stdin1 =>
      if pyLowerStrip line = "y".toList then
        match execute_command cfg proc command stdin1 with
        | .waiting => .waiting
        | .crashed => .crashed
        | .ok r stdin2 =>
          if retry_condition r.success r.stderr then
            let hist1 := add_message cfg hist "user".toList (fix_request command r.stderr)
            match chatFn (get_chat_messages hist1) with
            | some fix => .recur fix stdin2 (add_message cfg hist1 "assistant".toList fix)
            | none => handleLoop cfg proc chatFn rest stdin2 hist1 response
          else handleLoop cfg proc chatFn rest stdin2 hist response
      else handleLoop cfg proc chatFn rest stdin1 hist response

/-- Overall outcome of `handle_command_execution`.  `fuelOut` marks a run
whose recursion depth exceeds the given budget — the Python function would
still be recursing at that depth. -/
inductive HandleOut where
  | done (final : Str) (stdin : List Str) (hist : List Message) : HandleOut
  | waiting : HandleOut
  | crashed : HandleOut
  | fuelOut : HandleOut
deriving DecidableEq

/-- `ITAssistant.handle_command_execution`: extract candidates and run the
candidate loop; on `recur fix …` the Python code returns
`self.handle_command_execution(fix_response)`, embedded here as recursion
on an explicit depth budget `fuel` (the source tracks no depth at all). -/
def handle_command_execution (cfg : Config) (proc : Str → ProcBehavior)
    (chatFn : List Message → Option Str) :
    Nat → List Str → List Message → Str → HandleOut
  | fuel, stdin, hist, response =>
    match handleLoop cfg proc chatFn (extract_commands response) stdin hist response with
    | .done final stdin1 hist1 => .done final stdin1 hist1
    | .waiting => .waiting
    | .crashed => .crashed
    | .recur fix stdin1 hist1 =>
      match fuel with
      | 0 => .fuelOut
      | Nat.succ f => handle_command_execution cfg proc chatFn f stdin1 hist1 fix

/-- A live operating-system process: its pid and its process group id.
`subprocess.Popen(shell=True)` without `start_new_session`/`preexec_fn`
leaves the shell child and its descendants in the caller's process
group. -/
structure ProcNode where
  pid : Nat
  pgid : Nat
deriving DecidableEq

/-- `os.kill`-style removal of the single process with the given pid,
which is what `process.kill()` does on `subprocess.TimeoutExpired`. -/
def kill_process (p : Nat) (ps : List ProcNode) : List ProcNode :=
  ps.filter (fun q => q.pid != p)

/-- Group-wide removal (`os.killpg`), what reaping the whole process group
on timeout would do.  `execute_command` never calls this. -/
def kill_process_group (g : Nat) (ps : List ProcNode) : List ProcNode :=
  ps.filter (fun q => q.pgid != g)

/-- The timeout cleanup performed by `execute_command`
(`except subprocess.TimeoutExpired: process.kill()`): signal only the
direct shell child. -/
def timeout_cleanup (child : ProcNode) (ps : List ProcNode) : List ProcNode :=
  kill_process child.pid ps

/-- An always-failing process oracle: every command exits 1 with stderr
`err`. -/
def failProc : Str → ProcBehavior := fun _ => .completes 1 [] "err".toList

/-- A model response carrying one extractable command. -/
def loopResponse : Str := "```bash\nls\n```".toList

/-- A chat oracle that always answers with `loopResponse`. -/
def loopChat : List Message → Option Str := fun _ => some loopResponse

/-- `Config` with confirmation disabled (`--no-confirm`). -/
def noConfirmConfig : Config := { defaultConfig with require_confirmation := false }

/-- A response that is exactly one fenced `bash` block with content `c`. -/
def bash_block_response (c : Str) : Str :=
  "```bash\n".toList ++ c ++ "\n```".toList

set_option maxRecDepth 10000

/-- Helper: a dangerous command is validated as unsafe, with the danger
reason and `requires_privileges = False`. -/
theorem validate_dangerous_eq (cfg : Config) (command : Str)
    (h : (is_dangerous_command cfg command).1 = true) :
    validate_command cfg command = (false, (is_dangerous_command cfg command).2, false) := by
  unfold validate_command
  simp [h]

/-- Helper: a non-dangerous command is validated as safe with empty reason
and the privilege flag. -/
theorem validate_safe_eq (cfg : Config) (command : Str)
    (h : (is_dangerous_command cfg command).1 = false) :
    validate_command cfg command = (true, [], requires_privileges cfg command) := by
  unfold validate_command
  simp [h]

/-- Helper: the security-block branch of `execute_command`. -/
theorem execute_blocked (cfg : Config) (proc : Str → ProcBehavior) (command : Str)
    (stdin : List Str) (h : (is_dangerous_command cfg command).1 = true) :
    execute_command cfg proc command stdin =
      .ok ⟨false, [], security_block_message (is_dangerous_command cfg command).2, false⟩ stdin := by
  unfold execute_command
  rw [validate_dangerous_eq cfg command h]
  simp

/-- Helper: the security-block message is never empty. -/
theorem security_block_message_ne (reason : Str) :
    (security_block_message reason).isEmpty = false := rfl

/-- C1.  A command matching any configured forbidden pattern is classified
unsafe by `validate_command`, and `execute_command` returns a failure with
the security-block message in the stderr slot without reaching
`subprocess.Popen` (ghost flag `spawned = false`) and without consuming
consent input. -/
theorem forbidden_never_executed (cfg : Config) (proc : Str → ProcBehavior)
    (command : Str) (stdin : List Str)
    (h : (is_dangerous_command cfg command).1 = true) :
    (validate_command cfg command).1 = false ∧
    execute_command cfg proc command stdin =
      .ok ⟨false, [], security_block_message (is_dangerous_command cfg command).2, false⟩ stdin := by
  refine ⟨?_, execute_blocked cfg proc command stdin h⟩
  rw [validate_dangerous_eq cfg command h]

/-- Witness for C1 at the forbidden command `rm -rf /`. -/
theorem forbidden_never_executed_witness :
    (is_dangerous_command defaultConfig "rm -rf /".toList).1 = true ∧
    ((validate_command defaultConfig "rm -rf /".toList).1 = false ∧
      execute_command defaultConfig (fun _ => .timesOut) "rm -rf /".toList [] =
        .ok ⟨false, [],
          security_block_message (is_dangerous_command defaultConfig "rm -rf /".toList).2,
          false⟩ []) :=
  ⟨by decide, forbidden_never_executed defaultConfig (fun _ => .timesOut) "rm -rf /".toList [] (by decide)⟩

/-- C6.  Classification is a pure function of the command text: a
dangerous match yields `(False, reason, False)` (forbidden takes
precedence, privilege flag forced off); with no dangerous match, a
privileged token occurring as a substring of the lower-cased stripped
command yields `(True, "", True)`; with neither, `(True, "", False)`. -/
theorem classify_characterization (cfg : Config) (command : Str) :
    ((is_dangerous_command cfg command).1 = true →
      validate_command cfg command = (false, (is_dangerous_command cfg command).2, false)) ∧
    ((is_dangerous_command cfg command).1 = false →
      (∃ t ∈ cfg.privileged_commands, isSubstr t (pyStrip (strLower command)) = true) →
      validate_command cfg command = (true, [], true)) ∧
    ((is_dangerous_command cfg command).1 = false →
      (¬ ∃ t ∈ cfg.privileged_commands, isSubstr t (pyStrip (strLower command)) = true) →
      validate_command cfg command = (true, [], false)) := by
  refine ⟨validate_dangerous_eq cfg command, ?_, ?_⟩ <;> intro h hp
  · rw [validate_safe_eq cfg command h]
    have : requires_privileges cfg command = true := by
      simpa [requires_privileges, List.any_eq_true] using hp
    rw [this]
  · rw [validate_safe_eq cfg command h]
    have : requires_privileges cfg command = false := by
      simp only [requires_privileges, List.any_eq_true]
      simpa using hp
    rw [this]

/-- Witness for C6 at `sudo rm -rf /`: dangerous-pattern precedence over
the privileged token `sudo`. -/
theorem classify_characterization_witness :
    (is_dangerous_command defaultConfig "sudo rm -rf /".toList).1 = true ∧
    validate_command defaultConfig "sudo rm -rf /".toList =
      (false, danger_reason "rm\\s+-rf\\s+/".toList, false) :=
  ⟨by decide,
    ((classify_characterization defaultConfig "sudo rm -rf /".toList).1 (by decide)).trans (by decide)⟩

/-- C4.  For a privileged (and not forbidden) command, the executor
spawns a process only when the consent gate returned `approved` for that
command, and a `denied` decision produces the failure triple
`(False, "", "Permission denied by user")` with no spawn. -/
theorem privileged_requires_consent (cfg : Config) (proc : Str → ProcBehavior)
    (command : Str) (stdin : List Str)
    (hd : (is_dangerous_command cfg command).1 = false)
    (hp : requires_privileges cfg command = true) :
    (∀ r stdin1, execute_command cfg proc command stdin = .ok r stdin1 →
      r.spawned = true → (request_permission cfg command stdin).1 = .approved) ∧
    ((request_permission cfg command stdin).1 = .denied →
      execute_command cfg proc command stdin =
        .ok ⟨false, [], "Permission denied by user".toList, false⟩
          (request_permission cfg command stdin).2.1) := by
  have hv := validate_safe_eq cfg command hd
  rcases hreq : request_permission cfg command stdin with ⟨c, stdin1, outs⟩
  have hex : execute_command cfg proc command stdin =
      match (c, stdin1, outs) with
      | (.approved, s1, _) => runProc cfg proc command s1
      | (.denied, s1, _) => .ok ⟨false, [], "Permission denied by user".toList, false⟩ s1
      | (.waiting, _, _) => .waiting
      | (.crashed, _, _) => .crashed := by
    unfold execute_command
    rw [hv, hreq]
    simp [hp]
  cases c
  case approved =>
    refine ⟨fun r s1 _ _ => rfl, fun hden => by simp at hden⟩
  case denied =>
    refine ⟨fun r s1 hr hsp => ?_, fun _ => by simpa using hex⟩
    rw [hex] at hr
    simp at hr
    rw [← hr.1] at hsp
    simp at hsp
  case waiting =>
    refine ⟨fun r s1 hr _ => ?_, fun hden => by simp at hden⟩
    rw [hex] at hr
    simp at hr
  case crashed =>
    refine ⟨fun r s1 hr _ => ?_, fun hden => by simp at hden⟩
    rw [hex] at hr
    simp at hr

/-- Witness for C4: `sudo apt update` with console reply `n` is denied and
not spawned. -/
theorem privileged_requires_consent_witness :
    (is_dangerous_command defaultConfig "sudo apt update".toList).1 = false ∧
    requires_privileges defaultConfig "sudo apt update".toList = true ∧
    execute_command defaultConfig (fun _ => .timesOut) "sudo apt update".toList ["n".toList] =
      .ok ⟨false, [], "Permission denied by user".toList, false⟩ [] :=
  ⟨by decide, by decide,
    (((privileged_requires_consent defaultConfig (fun _ => .timesOut)
        "sudo apt update".toList ["n".toList] (by decide) (by decide)).2 (by decide)).trans (by decide))⟩

/-- C7.  Every `execute_command` failure other than a normal non-zero
exit — security block, consent denial, timeout, or spawn error — returns
empty stdout and a non-empty synthesized stderr, and therefore satisfies
the recovery loop's retry guard `if not success and stderr:`. -/
theorem non_exit_failures_trigger_retry (cfg : Config) (proc : Str → ProcBehavior)
    (command : Str) (stdin : List Str)
    (h :
      (is_dangerous_command cfg command).1 = true ∨
      ((is_dangerous_command cfg command).1 = false ∧
        requires_privileges cfg command = true ∧
        (request_permission cfg command stdin).1 = .denied) ∨
      ((is_dangerous_command cfg command).1 = false ∧
        (requires_privileges cfg command = true →
          (request_permission cfg command stdin).1 = .approved) ∧
        (proc command = .timesOut ∨ ∃ m, proc command = .spawnError m))) :
    ∃ r stdin1, execute_command cfg proc command stdin = .ok r stdin1 ∧
      r.success = false ∧ r.stdout = [] ∧ r.stderr.isEmpty = false ∧
      retry_condition r.success r.stderr = true := by
  rcases h with hd | ⟨hd, hp, hden⟩ | ⟨hd, happ, hproc⟩
  · exact ⟨⟨false, [], security_block_message (is_dangerous_command cfg command).2, false⟩,
      stdin, execute_blocked cfg proc command stdin hd, rfl, rfl, rfl, rfl⟩
  · rcases hreq : request_permission cfg command stdin with ⟨c, stdin1, outs⟩
    rw [hreq] at hden
    simp at hden
    subst hden
    refine ⟨⟨false, [], "Permission denied by user".toList, false⟩, stdin1, ?_, rfl, rfl, rfl, rfl⟩
    unfold execute_command
    rw [validate_safe_eq cfg command hd, hreq]
    simp [hp]
  · by_cases hp : requires_privileges cfg command = true
    · rcases hreq : request_permission cfg command stdin with ⟨c, stdin1, outs⟩
      rw [hreq] at happ
      simp [hp] at happ
      subst happ
      have hex : execute_command cfg proc command stdin = runProc cfg proc command stdin1 := by
        unfold execute_command
        rw [validate_safe_eq cfg command hd, hreq]
        simp [hp]
      rcases hproc with ht | ⟨m, hm⟩
      · exact ⟨⟨false, [], timeout_message cfg.command_timeout, true⟩, stdin1,
          by rw [hex]; unfold runProc; rw [ht], rfl, rfl, rfl, rfl⟩
      · exact ⟨⟨false, [], "Execution error: ".toList ++ m, false⟩, stdin1,
          by rw [hex]; unfold runProc; rw [hm], rfl, rfl, rfl, rfl⟩
    · have hex : execute_command cfg proc command stdin = runProc cfg proc command stdin := by
        unfold execute_command
        rw [validate_safe_eq cfg command hd]
        simp [hp]
      rcases hproc with ht | ⟨m, hm⟩
      · exact ⟨⟨false, [], timeout_message cfg.command_timeout, true⟩, stdin,
          by rw [hex]; unfold runProc; rw [ht], rfl, rfl, rfl, rfl⟩
      · exact ⟨⟨false, [], "Execution error: ".toList ++ m, false⟩, stdin,
          by rw [hex]; unfold runProc; rw [hm], rfl, rfl, rfl, rfl⟩

/-- Witness for C7: the timeout case at `sleep 100`. -/
theorem non_exit_failures_trigger_retry_witness :
    ((is_dangerous_command defaultConfig "sleep 100".toList).1 = false ∧
      (requires_privileges defaultConfig "sleep 100".toList = true →
        (request_permission defaultConfig "sleep 100".toList []).1 = .approved) ∧
      ((fun _ : Str => ProcBehavior.timesOut) "sleep 100".toList = .timesOut ∨
        ∃ m, (fun _ : Str => ProcBehavior.timesOut) "sleep 100".toList = .spawnError m)) ∧
    ∃ r stdin1,
      execute_command defaultConfig (fun _ => .timesOut) "sleep 100".toList [] = .ok r stdin1 ∧
      r.success = false ∧ r.stdout = [] ∧ r.stderr.isEmpty = false ∧
      retry_condition r.success r.stderr = true :=
  ⟨⟨by decide, by decide, Or.inl rfl⟩,
    non_exit_failures_trigger_retry defaultConfig (fun _ => .timesOut) "sleep 100".toList []
      (Or.inr (Or.inr ⟨by decide, by decide, Or.inl rfl⟩))⟩

/-- C8.  The candidate loop asks before running: a console reply whose
lower-cased strip is not exactly `y` skips the candidate entirely (no
classification, no execution, no retry request — the loop state is as if
the candidate were absent), and a reply `y` hands the candidate to
`execute_command`. -/
theorem loop_prompt_gates_execution (cfg : Config) (proc : Str → ProcBehavior)
    (chatFn : List Message → Option Str) (command : Str) (rest : List Str)
    (line : Str) (stdin : List Str) (hist : List Message) (response : Str) :
    (pyLowerStrip line ≠ "y".toList →
      handleLoop cfg proc chatFn (command :: rest) (line :: stdin) hist response =
        handleLoop cfg proc chatFn rest stdin hist response) ∧
    (pyLowerStrip line = "y".toList →
      handleLoop cfg proc chatFn (command :: rest) (line :: stdin) hist response =
        match execute_command cfg proc command stdin with
        | .waiting => .waiting
        | .crashed => .crashed
        | .ok r stdin2 =>
          if retry_condition r.success r.stderr then
            match chatFn (get_chat_messages
                (add_message cfg hist "user".toList (fix_request command r.stderr))) with
            | some fix => .recur fix stdin2
                (add_message cfg
                  (add_message cfg hist "user".toList (fix_request command r.stderr))
                  "assistant".toList fix)
            | none => handleLoop cfg proc chatFn rest stdin2
                (add_message cfg hist "user".toList (fix_request command r.stderr)) response
          else handleLoop cfg proc chatFn rest stdin2 hist response) := by
  constructor <;> intro h
  · simp only [handleLoop, if_neg h]
  · simp only [handleLoop, if_pos h]

/-- Witness for C8: reply `n` skips the candidate. -/
theorem loop_prompt_gates_execution_witness :
    pyLowerStrip "n".toList ≠ "y".toList ∧
    handleLoop defaultConfig (fun _ => .timesOut) (fun _ => none)
      ["ls".toList] ["n".toList] [] "resp".toList =
      handleLoop defaultConfig (fun _ => .timesOut) (fun _ => none)
        [] [] [] "resp".toList :=
  ⟨by decide,
    (loop_prompt_gates_execution defaultConfig (fun _ => .timesOut) (fun _ => none)
      "ls".toList [] "n".toList [] [] "resp".toList).1 (by decide)⟩

/-- Counterexample to C3 as stated: for the forbidden candidate
`rm -rf /` (approved at the y/n prompt, model returning no answer) the
recovery loop appends a fix request for that very candidate to the
conversation — the security-block failure has non-empty stderr and so
satisfies the retry guard. -/
theorem forbidden_triggers_fix_request_cex :
    handle_command_execution defaultConfig (fun _ => .timesOut) (fun _ => none) 0
      ["y".toList] [] "```bash\nrm -rf /\n```".toList =
    .done "```bash\nrm -rf /\n```".toList []
      [⟨"user".toList, fix_request "rm -rf /".toList
        (security_block_message (danger_reason "rm\\s+-rf\\s+/".toList))⟩] := by decide

/-- C3 (amended).  A forbidden candidate is never executed (no spawn) and
fails with the security-block message; but, because that failure carries
non-empty stderr, the loop then builds the fix request for the forbidden
candidate and consults the model with it, recursing on any answer. -/
theorem forbidden_candidate_fix_request (cfg : Config) (proc : Str → ProcBehavior)
    (chatFn : List Message → Option Str) (command : Str) (rest : List Str)
    (line : Str) (stdin : List Str) (hist : List Message) (response : Str)
    (hd : (is_dangerous_command cfg command).1 = true)
    (hy : pyLowerStrip line = "y".toList) :
    handleLoop cfg proc chatFn (command :: rest) (line :: stdin) hist response =
      match chatFn (get_chat_messages (add_message cfg hist "user".toList
          (fix_request command
            (security_block_message (is_dangerous_command cfg command).2)))) with
      | some fix => .recur fix stdin
          (add_message cfg
            (add_message cfg hist "user".toList
              (fix_request command
                (security_block_message (is_dangerous_command cfg command).2)))
            "assistant".toList fix)
      | none => handleLoop cfg proc chatFn rest stdin
          (add_message cfg hist "user".toList
            (fix_request command
              (security_block_message (is_dangerous_command cfg command).2))) response := by
  simp only [handleLoop, if_pos hy]
  rw [execute_blocked cfg proc command stdin hd]
  simp [retry_condition, security_block_message_ne]

/-- Witness for the amended C3 at `rm -rf /` with a silent model. -/
theorem forbidden_candidate_fix_request_witness :
    (is_dangerous_command defaultConfig "rm -rf /".toList).1 = true ∧
    pyLowerStrip "y".toList = "y".toList ∧
    handleLoop defaultConfig (fun _ => .timesOut) (fun _ => none)
      ["rm -rf /".toList] ["y".toList] [] "x".toList =
      .done "x".toList []
        [⟨"user".toList, fix_request "rm -rf /".toList
          (security_block_message (danger_reason "rm\\s+-rf\\s+/".toList))⟩] :=
  ⟨by decide, by decide,
    (forbidden_candidate_fix_request defaultConfig (fun _ => .timesOut) (fun _ => none)
      "rm -rf /".toList [] "y".toList [] [] "x".toList (by decide) (by decide)).trans
      (by decide)⟩

/-- Helper for C2: in an environment where the single extracted command
always fails and the model always answers with the same response, the
recovery recursion exceeds every depth budget, for every value of
`max_retries` and any starting history. -/
theorem handle_unbounded_aux :
    ∀ (fuel k : Nat) (hist : List Message),
      handle_command_execution { defaultConfig with max_retries := k } failProc loopChat
        fuel (List.replicate (fuel + 1) "y".toList) hist loopResponse = .fuelOut := by
  intro fuel
  induction fuel with
  | zero => intro k hist; rfl
  | succ f ih =>
    intro k hist
    exact ih k _

/-- C2 (code bug).  `handle_command_execution` tracks no recursion depth
and never consults `Config.max_retries` (quantified here as `k`): with an
always-failing command, an always-approving user, and a model that always
answers with the same one-command response, the failure-retry recursion
exceeds every finite depth budget `fuel` instead of stopping at a cap and
returning the last response. -/
theorem handle_recursion_unbounded (fuel k : Nat) :
    handle_command_execution { defaultConfig with max_retries := k } failProc loopChat
      fuel (List.replicate (fuel + 1) "y".toList) [] loopResponse = .fuelOut :=
  handle_unbounded_aux fuel k []

/-- C5 (code bug).  On `subprocess.TimeoutExpired` the executor calls only
`process.kill()` on the direct shell child: a descendant in the same
process group survives the cleanup (whereas killing the process group
would reap it), while the returned outcome is indeed a timed-out failure
with `succeeded = false`. -/
theorem timeout_kill_leaves_group_member :
    timeout_cleanup ⟨10, 5⟩ [⟨10, 5⟩, ⟨11, 5⟩] = [⟨11, 5⟩] ∧
    (⟨11, 5⟩ : ProcNode).pgid = (⟨10, 5⟩ : ProcNode).pgid ∧
    kill_process_group 5 [⟨10, 5⟩, ⟨11, 5⟩] = [] ∧
    execute_command defaultConfig (fun _ => .timesOut) "sleep 100".toList [] =
      .ok ⟨false, [], timeout_message 30, true⟩ [] := by decide

/-- Helper: the decision loop returns `approved` or `denied` only when
some consumed line carries a decisive token. -/
theorem requestLoop_decisive (command : Str) :
    ∀ stdin : List Str,
      (requestLoop command stdin).1 = .approved ∨ (requestLoop command stdin).1 = .denied →
      ∃ line ∈ stdin, pyLowerStrip line ∈
        (["yes".toList, "y".toList, "no".toList, "n".toList] : List Str) := by
  intro stdin
  induction stdin with
  | nil => intro h; simp [requestLoop] at h
  | cons line rest ih =>
    intro h
    by_cases h1 : pyLowerStrip line = "yes".toList ∨ pyLowerStrip line = "y".toList
    · exact ⟨line, by simp, by rcases h1 with h1 | h1 <;> simp [h1]⟩
    · by_cases h2 : pyLowerStrip line = "no".toList ∨ pyLowerStrip line = "n".toList
      · exact ⟨line, by simp, by rcases h2 with h2 | h2 <;> simp [h2]⟩
      · have hrec : (requestLoop command (line :: rest)).1 = (requestLoop command rest).1 ∨
            (requestLoop command (line :: rest)).1 = .crashed := by
          simp only [requestLoop]
          rw [if_neg (by simpa using h1), if_neg (by simpa using h2)]
          by_cases h3 : pyLowerStrip line = "explain".toList ∨ pyLowerStrip line = "e".toList
          · rw [if_pos (by simpa using h3)]
            cases hexp : explain_command command
            · simp
            · simp
          · rw [if_neg (by simpa using h3)]
            simp
        rcases hrec with hrec | hrec
        · rw [hrec] at h
          obtain ⟨l, hl, hmem⟩ := ih h
          exact ⟨l, by simp [hl], hmem⟩
        · rw [hrec] at h
          simp at h

/-- C9.  `request_permission`: with confirmation disabled it approves
immediately without consuming input or printing; otherwise each consumed
line acts by its lower-cased strip — `yes`/`y` approves, `no`/`n` denies,
`explain`/`e` prints the explanation keyed by the command's first word and
re-prompts, anything else re-prompts with no state change — and an
`approved`/`denied` outcome arises only from a decisive token. -/
theorem request_permission_spec (cfg : Config) (command : Str) (stdin : List Str) :
    (cfg.require_confirmation = false →
      request_permission cfg command stdin = (.approved, stdin, [])) ∧
    (cfg.require_confirmation = true → ∀ line rest, stdin = line :: rest →
      ((pyLowerStrip line = "yes".toList ∨ pyLowerStrip line = "y".toList) →
        request_permission cfg command stdin = (.approved, rest, [])) ∧
      ((pyLowerStrip line = "no".toList ∨ pyLowerStrip line = "n".toList) →
        request_permission cfg command stdin = (.denied, rest, [])) ∧
      ((pyLowerStrip line = "explain".toList ∨ pyLowerStrip line = "e".toList) →
        ∀ w, firstWord command = some w →
          request_permission cfg command stdin =
            ((request_permission cfg command rest).1,
              (request_permission cfg command rest).2.1,
              explanation_for w :: (request_permission cfg command rest).2.2)) ∧
      ((pyLowerStrip line ∉
          (["yes".toList, "y".toList, "no".toList, "n".toList,
            "explain".toList, "e".toList] : List Str)) →
        request_permission cfg command stdin = request_permission cfg command rest)) ∧
    ((request_permission cfg command stdin).1 = .approved ∨
        (request_permission cfg command stdin).1 = .denied →
      cfg.require_confirmation = false ∨
        ∃ line ∈ stdin, pyLowerStrip line ∈
          (["yes".toList, "y".toList, "no".toList, "n".toList] : List Str)) := by
  refine ⟨?_, ?_, ?_⟩
  · intro h
    simp [request_permission, h]
  · intro hconf line rest hstdin
    subst hstdin
    refine ⟨?_, ?_, ?_, ?_⟩
    · intro h
      simp only [request_permission, hconf, if_true, requestLoop]
      rw [if_pos (by simpa using h)]
    · intro h
      simp only [request_permission, hconf, if_true, requestLoop]
      rw [if_neg (by rcases h with h | h <;> simp [h]), if_pos (by simpa using h)]
    · intro h w hw
      have hyn : ¬(pyLowerStrip line = "yes".toList ∨ pyLowerStrip line = "y".toList) := by
        rcases h with h | h <;> simp [h]
      have hnn : ¬(pyLowerStrip line = "no".toList ∨ pyLowerStrip line = "n".toList) := by
        rcases h with h | h <;> simp [h]
      simp only [request_permission, hconf, if_true, requestLoop]
      rw [if_neg (by simpa using hyn), if_neg (by simpa using hnn),
        if_pos (by simpa using h)]
      rw [show explain_command command = some (explanation_for w) by
        simp [explain_command, hw]]
    · intro h
      have hy1 : ¬pyLowerStrip line = "yes".toList := fun he => h (by rw [he]; simp)
      have hy2 : ¬pyLowerStrip line = "y".toList := fun he => h (by rw [he]; simp)
      have hn1 : ¬pyLowerStrip line = "no".toList := fun he => h (by rw [he]; simp)
      have hn2 : ¬pyLowerStrip line = "n".toList := fun he => h (by rw [he]; simp)
      have he1 : ¬pyLowerStrip line = "explain".toList := fun he => h (by rw [he]; simp)
      have he2 : ¬pyLowerStrip line = "e".toList := fun he => h (by rw [he]; simp)
      simp only [request_permission, hconf, if_true, requestLoop]
      rw [if_neg (by simp only [Bool.or_eq_true, decide_eq_true_eq, not_or]; exact ⟨hy1, hy2⟩),
        if_neg (by simp only [Bool.or_eq_true, decide_eq_true_eq, not_or]; exact ⟨hn1, hn2⟩),
        if_neg (by simp only [Bool.or_eq_true, decide_eq_true_eq, not_or]; exact ⟨he1, he2⟩)]
  · intro h
    by_cases hconf : cfg.require_confirmation
    · right
      apply requestLoop_decisive command stdin
      simpa [request_permission, hconf] using h
    · left
      simpa using hconf

/-- Witness for C9: with `--no-confirm`, consent is granted at once. -/
theorem request_permission_spec_witness :
    noConfirmConfig.require_confirmation = false ∧
    request_permission noConfirmConfig "sudo apt update".toList ["anything".toList] =
      (.approved, ["anything".toList], []) :=
  ⟨by decide,
    (request_permission_spec noConfirmConfig "sudo apt update".toList
      ["anything".toList]).1 (by decide)⟩

/-- Helper: ASCII lowering maps only letters; a non-backtick never lowers
to a backtick. -/
theorem lowerChar_ne_btick (c : Char) (h : c ≠ btick) : lowerChar c ≠ btick := by
  unfold lowerChar
  split
  all_goals first | decide | exact h

/-- Helper: in a backtick-free text followed by the close delimiter, the
first occurrence of the close delimiter is exactly the appended one. -/
theorem splitAtFirst_close (C : Str) (hb : btick ∉ C) :
    splitAtFirst closeTok (C ++ closeTok) = some (C, []) := by
  induction C with
  | nil => decide
  | cons c C' ih =>
    have hb' : btick ∉ C' := fun h => hb (List.mem_cons_of_mem _ h)
    have hpre : closeTok.isPrefixOf (c :: (C' ++ closeTok)) = false := by
      rw [show closeTok = '\n' :: btick :: btick :: btick :: [] from by decide]
      cases C' with
      | nil =>
        show List.isPrefixOf _ (c :: ([] ++ ('\n' :: btick :: btick :: btick :: []))) = false
        simp [List.isPrefixOf]
        intro
        decide
      | cons d C'' =>
        have hd : d ≠ btick := fun hh => hb (by rw [hh]; simp)
        simp [List.isPrefixOf]
        intro
        exact fun hdd => absurd hdd.symm hd
    rw [List.cons_append, splitAtFirst, if_neg (by simp [hpre]), ih hb']

/-- Helper: the response around a single bash block, in cons form. -/
theorem bash_block_cons (C : Str) :
    bash_block_response C =
      btick :: btick :: btick :: 'b' :: 'a' :: 's' :: 'h' :: '\n' :: (C ++ closeTok) := by
  unfold bash_block_response
  rw [show "```bash\n".toList =
    btick :: btick :: btick :: 'b' :: 'a' :: 's' :: 'h' :: '\n' :: [] from by decide]
  rw [show "\n```".toList = closeTok from rfl]
  simp

/-- Helper: the fuelled scanner on an empty text. -/
theorem findFencedGo_nil (tag : Str) (f : Nat) : findFencedGo tag f [] = [] := by
  cases f <;> rfl

/-- Helper: a fence scan whose tag opens with a backtick finds nothing in
a backtick-free text followed by the close delimiter. -/
theorem findFencedScan_mid (tag : Str) (ts : Str) (cont : Str → List Str)
    (htag : tag = btick :: ts)
    (hclose : findFencedScan tag cont closeTok = []) :
    ∀ l : Str, btick ∉ l → findFencedScan tag cont (l ++ closeTok) = [] := by
  intro l
  induction l with
  | nil => intro _; simpa using hclose
  | cons c l' ih =>
    intro hb
    have hc : c ≠ btick := fun h => hb (by rw [h]; simp)
    have hsw : startsWithCI tag (c :: (l' ++ closeTok)) = false := by
      rw [htag]
      show (lowerChar c == btick && startsWithCI ts (l' ++ closeTok)) = false
      rw [beq_eq_false_iff_ne.mpr (lowerChar_ne_btick c hc)]
      rfl
    rw [List.cons_append]
    show findFencedScan tag cont (c :: (l' ++ closeTok)) = []
    rw [findFencedScan, if_neg (by simp [hsw])]
    exact ih (fun h => hb (List.mem_cons_of_mem _ h))

/-- Helper: no `shell` fence opens anywhere in a single-bash-block
response with backtick-free content. -/
theorem findFenced_shell_resp (C : Str) (hb : btick ∉ C) :
    findFenced "```shell\n".toList (bash_block_response C) = [] := by
  show findFencedScan "```shell\n".toList
    (findFencedGo "```shell\n".toList (bash_block_response C).length)
    (bash_block_response C) = []
  rw [bash_block_cons]
  show findFencedScan "```shell\n".toList
    (findFencedGo "```shell\n".toList (bash_block_response C).length) (C ++ closeTok) = []
  refine findFencedScan_mid _ "``shell\n".toList _ (by decide) ?_ C hb
  rfl

/-- Helper: likewise for the `sh` fence. -/
theorem findFenced_sh_resp (C : Str) (hb : btick ∉ C) :
    findFenced "```sh\n".toList (bash_block_response C) = [] := by
  show findFencedScan "```sh\n".toList
    (findFencedGo "```sh\n".toList (bash_block_response C).length)
    (bash_block_response C) = []
  rw [bash_block_cons]
  show findFencedScan "```sh\n".toList
    (findFencedGo "```sh\n".toList (bash_block_response C).length) (C ++ closeTok) = []
  refine findFencedScan_mid _ "``sh\n".toList _ (by decide) ?_ C hb
  rfl

/-- Helper: likewise for the unlabeled fence fallback. -/
theorem findFenced_plain_resp (C : Str) (hb : btick ∉ C) :
    findFenced "```\n".toList (bash_block_response C) = [] := by
  show findFencedScan "```\n".toList
    (findFencedGo "```\n".toList (bash_block_response C).length)
    (bash_block_response C) = []
  rw [bash_block_cons]
  show findFencedScan "```\n".toList
    (findFencedGo "```\n".toList (bash_block_response C).length) (C ++ closeTok) = []
  refine findFencedScan_mid _ "``\n".toList _ (by decide) ?_ C hb
  rfl

/-- Helper: the bash fence extracts exactly the block content. -/
theorem findFenced_bash_resp (C : Str) (hb : btick ∉ C) :
    findFenced "```bash\n".toList (bash_block_response C) = [C] := by
  show findFencedScan "```bash\n".toList
    (findFencedGo "```bash\n".toList (bash_block_response C).length)
    (bash_block_response C) = [C]
  rw [bash_block_cons]
  rw [findFencedScan, if_pos (by rfl)]
  rw [show (btick :: btick :: btick :: 'b' :: 'a' :: 's' :: 'h' :: '\n' ::
      (C ++ closeTok)).drop ("```bash\n".toList).length = C ++ closeTok from rfl]
  rw [splitAtFirst_close C hb]
  show C :: findFencedGo "```bash\n".toList
    (btick :: btick :: btick :: 'b' :: 'a' :: 's' :: 'h' :: '\n' :: (C ++ closeTok)).length [] = [C]
  rw [findFencedGo_nil]

/-- Helper: the marker tail (`\s*` backtick group backtick) never matches
inside a backtick-free text followed by a (possibly clipped) close
delimiter: the only reachable backticks are the closing fence, where the
group is empty. -/
theorem markerAttempt_core (l : Str) (m : Nat) (hb : btick ∉ l) :
    markerAttempt (l ++ closeTok.drop m) = none := by
  cases hdw : l.dropWhile pyWs with
  | cons h t =>
    have hmem : h ∈ l := (List.dropWhile_sublist _).subset (by rw [hdw]; exact List.mem_cons_self h t)
    have hne : h ≠ btick := fun he => hb (he ▸ hmem)
    have hall : (l ++ closeTok.drop m).dropWhile pyWs = h :: (t ++ closeTok.drop m) := by
      rw [List.dropWhile_append, hdw]
      simp
    unfold markerAttempt
    rw [hall]
    simp [hne]
  | nil =>
    have hall : (l ++ closeTok.drop m).dropWhile pyWs = (closeTok.drop m).dropWhile pyWs := by
      rw [List.dropWhile_append, hdw]
      simp
    unfold markerAttempt
    rw [hall]
    rcases m with _ | _ | _ | _ | m
    · decide
    · decide
    · decide
    · decide
    · rw [List.drop_of_length_le (by simp [closeTok])]
      rfl

/-- Helper: the marker tail fails at every offset into
`backtick-free ++ close`. -/
theorem markerAttempt_drop (l : Str) (n : Nat) (hb : btick ∉ l) :
    markerAttempt ((l ++ closeTok).drop n) = none := by
  rw [List.drop_append_eq_append_drop]
  exact markerAttempt_core (l.drop n) (n - l.length)
    (fun h => hb (List.drop_subset n l h))

/-- Helper: a marker scan finds nothing in a backtick-free text followed
by the close delimiter. -/
theorem findMarkerScan_mid (marker : Str) (n : Nat) (cont : Str → List Str)
    (hlen : marker.length = n + 1)
    (hclose : findMarkerScan marker cont closeTok = []) :
    ∀ l : Str, btick ∉ l → findMarkerScan marker cont (l ++ closeTok) = [] := by
  intro l
  induction l with
  | nil => intro _; simpa using hclose
  | cons c l' ih =>
    intro hb
    have hb' : btick ∉ l' := fun h => hb (List.mem_cons_of_mem _ h)
    rw [List.cons_append, findMarkerScan]
    by_cases hsw : startsWithCI marker (c :: (l' ++ closeTok)) = true
    · rw [if_pos hsw]
      have hdrop : (c :: (l' ++ closeTok)).drop marker.length = (l' ++ closeTok).drop n := by
        rw [hlen, List.drop_succ_cons]
      rw [hdrop, markerAttempt_drop l' n hb']
      exact ih hb'
    · rw [if_neg hsw]
      exact ih hb'

/-- Helper: no `Command:` match in the single-bash-block response. -/
theorem findMarker_command_resp (C : Str) (hb : btick ∉ C) :
    findMarker "command:".toList (bash_block_response C) = [] := by
  show findMarkerScan "command:".toList
    (findMarkerGo "command:".toList (bash_block_response C).length)
    (bash_block_response C) = []
  rw [bash_block_cons]
  show findMarkerScan "command:".toList
    (findMarkerGo "command:".toList (bash_block_response C).length) (C ++ closeTok) = []
  refine findMarkerScan_mid _ 7 _ (by decide) ?_ C hb
  rfl

/-- Helper: no `Execute:` match in the single-bash-block response. -/
theorem findMarker_execute_resp (C : Str) (hb : btick ∉ C) :
    findMarker "execute:".toList (bash_block_response C) = [] := by
  show findMarkerScan "execute:".toList
    (findMarkerGo "execute:".toList (bash_block_response C).length)
    (bash_block_response C) = []
  rw [bash_block_cons]
  show findMarkerScan "execute:".toList
    (findMarkerGo "execute:".toList (bash_block_response C).length) (C ++ closeTok) = []
  refine findMarkerScan_mid _ 7 _ (by decide) ?_ C hb
  rfl

/-- Helper: no `Run:` match in the single-bash-block response. -/
theorem findMarker_run_resp (C : Str) (hb : btick ∉ C) :
    findMarker "run:".toList (bash_block_response C) = [] := by
  show findMarkerScan "run:".toList
    (findMarkerGo "run:".toList (bash_block_response C).length)
    (bash_block_response C) = []
  rw [bash_block_cons]
  show findMarkerScan "run:".toList
    (findMarkerGo "run:".toList (bash_block_response C).length) (C ++ closeTok) = []
  refine findMarkerScan_mid _ 3 _ (by decide) ?_ C hb
  rfl

/-- Counterexample to C10 as stated: a block whose content is the comment
`#` extracts to nothing (not to `["#"]`), and backticks inside the content
(content `a`, a fence line, then `b`) make the extractor return two candidates. -/
theorem extract_round_trip_cex :
    pyStrip "#".toList = "#".toList ∧
    extract_commands (bash_block_response "#".toList) = [] ∧
    pyStrip "a\n```\nb".toList = "a\n```\nb".toList ∧
    extract_commands (bash_block_response "a\n```\nb".toList) =
      ["a".toList, "b".toList] := by decide

/-- C10 (amended).  For every content `C` that contains no backtick and
whose trim is nonempty and not a comment, extracting from a response that
is exactly one fenced bash block with content `C` yields exactly the
one-element sequence `[C trimmed]`. -/
theorem extract_round_trip (C : Str) (hb : btick ∉ C)
    (hk : isKept (pyStrip C) = true) :
    extract_commands (bash_block_response C) = [pyStrip C] := by
  unfold extract_commands
  rw [findFenced_bash_resp C hb, findFenced_shell_resp C hb, findFenced_sh_resp C hb,
    findMarker_command_resp C hb, findMarker_execute_resp C hb, findMarker_run_resp C hb,
    findFenced_plain_resp C hb]
  simp [hk]

/-- Witness for the amended C10 at content `ls -la`. -/
theorem extract_round_trip_witness :
    (btick ∉ "ls -la".toList) ∧ isKept (pyStrip "ls -la".toList) = true ∧
    extract_commands (bash_block_response "ls -la".toList) = [pyStrip "ls -la".toList] :=
  ⟨by decide, by decide, extract_round_trip "ls -la".toList (by decide) (by decide)⟩
